import Mathlib

/-!
Verification development for the three-pixelization repository.

The repository overlays a mouse/touch-driven pixelation mask on a rendered
3D scene.  We shallowly embed:

* the fragment shader of src/src/effects/PixelationMaskEffect.ts (the
  hover-gated legacy variant that is present in the sources), with GLSL
  floats modelled as rationals and the GPU transcendental primitives
  (sqrt, sin, atan2) abstracted into an oracle structure;
* the richest "always-on" mask shader variant (distance bands, fisheye,
  edge warp), which the sources only call (Scene.tsx passes blurRadius,
  fisheyeStrength, edgeWarpAmplitude and edgeWarpFrequency props) but whose
  shader body is not part of the sources; it is modelled from the
  specification text, see the MaskShader namespace;
* the pointer-tracking state machine of src/src/components/Scene.tsx
  (mobile/desktop input modes, touch drag, auto-centering, the clamped
  device-pixel-ratio factor).
-/

/-- Componentwise rational 4-vector, standing for a GLSL vec4 color. -/
structure Vec4 where
  x : ℚ
  y : ℚ
  z : ℚ
  w : ℚ
deriving DecidableEq, Repr

/-- A GLSL vec2 as a pair of rationals. -/
abbrev Vec2 : Type := ℚ × ℚ

/-- A texture: a color for every UV coordinate. -/
abbrev Image : Type := Vec2 → Vec4

/-- GLSL floor on a rational, back into the rationals. -/
def floorQ (q : ℚ) : ℚ := (⌊q⌋ : ℚ)

/-- GLSL clamp(x, lo, hi). -/
def clampQ (x lo hi : ℚ) : ℚ := max lo (min hi x)

/-- GLSL smoothstep with the standard Hermite formulation:
t = clamp((x - e0)/(e1 - e0), 0, 1), result t^2 * (3 - 2 t). -/
def smoothstepQ (e0 e1 x : ℚ) : ℚ :=
  let t := clampQ ((x - e0) / (e1 - e0)) 0 1
  t ^ 2 * (3 - 2 * t)

/-- GLSL mix(a, b, m) = a * (1 - m) + b * m, componentwise on colors. -/
def mixColor (a b : Vec4) (m : ℚ) : Vec4 :=
  ⟨a.x * (1 - m) + b.x * m, a.y * (1 - m) + b.y * m,
   a.z * (1 - m) + b.z * m, a.w * (1 - m) + b.w * m⟩

/-- The GPU transcendental primitives, abstracted: the embedding never needs
algebraic facts about them, only the values they return at the inputs used. -/
structure TrigOracle where
  sqrtQ : ℚ → ℚ
  sinQ : ℚ → ℚ
  atan2Q : ℚ → ℚ → ℚ

namespace PixelationMaskEffect

/-- The uniforms of the legacy fragment shader in
src/src/effects/PixelationMaskEffect.ts. -/
structure Uniforms where
  granularity : ℚ
  mousePosition : Vec2
  isModelHovered : ℚ
  circleRadius : ℚ
deriving DecidableEq, Repr

/-- Border width constant of the legacy shader (4.0 pixels). -/
def borderWidth : ℚ := 4

/-- dxy = granularity / screenSize; pixelatedUv = dxy * floor(uv / dxy),
componentwise, from the legacy fragment shader. -/
def pixelatedUv (granularity : ℚ) (screenSize uv : Vec2) : Vec2 :=
  let dxy : Vec2 := (granularity / screenSize.1, granularity / screenSize.2)
  (dxy.1 * floorQ (uv.1 / dxy.1), dxy.2 * floorQ (uv.2 / dxy.2))

/-- Pixel-space distance from the fragment to the Y-flipped mouse position,
as computed by the legacy fragment shader. -/
def distPixels (O : TrigOracle) (screenSize mousePosition uv : Vec2) : ℚ :=
  let correctedMousePosition : Vec2 := (mousePosition.1, screenSize.2 - mousePosition.2)
  let fragPixelCoord : Vec2 := (uv.1 * screenSize.1, uv.2 * screenSize.2)
  O.sqrtQ ((fragPixelCoord.1 - correctedMousePosition.1) ^ 2 +
           (fragPixelCoord.2 - correctedMousePosition.2) ^ 2)

/-- mainImage of the legacy fragment shader of PixelationMaskEffect.ts:
when isModelHovered > 0.5, draw a white border on the ring
circleRadius - 4 < dist < circleRadius, the sharp source inside the circle
and the pixelated source outside; when not hovered, pixelate everywhere. -/
def mainImage (O : TrigOracle) (inputBuffer : Image) (resolution : Vec2)
    (u : Uniforms) (uv : Vec2) : Vec4 :=
  let screenSize := resolution
  let pUv := pixelatedUv u.granularity screenSize uv
  let dist := distPixels O screenSize u.mousePosition uv
  let isInBorder := u.circleRadius - borderWidth < dist ∧ dist < u.circleRadius
  if u.isModelHovered > 1 / 2 then
    if isInBorder ∧ borderWidth > 0 then ⟨1, 1, 1, 1⟩
    else if dist < u.circleRadius then inputBuffer uv
    else inputBuffer pUv
  else inputBuffer pUv

end PixelationMaskEffect

namespace MaskShader

/-- Modelled from the spec: the parameter set (MaskConfig, spec section 3)
of the richest "always-on" mask shader variant, whose shader body is missing
from the sources (Scene.tsx passes these values as props, but the checked-in
PixelationMaskEffect.ts predates them).  The border thickness and color are
shader-internal constants of that variant (spec section 4.2, step 5). -/
structure Config where
  granularity : ℚ
  circleRadius : ℚ
  blurRadius : ℚ
  fisheyeStrength : ℚ
  edgeWarpAmplitude : ℚ
  edgeWarpFrequency : ℚ
  borderThickness : ℚ
  borderColor : Vec4
deriving DecidableEq, Repr

/-- Modelled from the spec: step 1 of the per-pixel algorithm, snap the UV
to a grid of cell size granularity / surfaceResolution, flooring to the
lower-left corner of the containing cell. -/
def snappedUv (granularity : ℚ) (resolution uv : Vec2) : Vec2 :=
  let cell : Vec2 := (granularity / resolution.1, granularity / resolution.2)
  (cell.1 * floorQ (uv.1 / cell.1), cell.2 * floorQ (uv.2 / cell.2))

/-- Modelled from the spec: the FocusPoint with its Y coordinate flipped
from the top-down DOM convention to the bottom-up shader convention. -/
def focusBottomUp (resolution focus : Vec2) : Vec2 :=
  (focus.1, resolution.2 - focus.2)

/-- Modelled from the spec: step 2, the raw pixel-space distance from the
fragment to the (Y-flipped) FocusPoint. -/
def rawDist (O : TrigOracle) (resolution focus uv : Vec2) : ℚ :=
  let fb := focusBottomUp resolution focus
  O.sqrtQ ((uv.1 * resolution.1 - fb.1) ^ 2 + (uv.2 * resolution.2 - fb.2) ^ 2)

/-- Modelled from the spec: step 3, when edgeWarpAmplitude > 0,
edgeWarpFrequency > 0 and dist > 0, perturb the distance by
sin(angle * edgeWarpFrequency) * edgeWarpAmplitude where angle is the
atan2 angle of the fragment around the FocusPoint; otherwise leave it. -/
def warpedDist (O : TrigOracle) (resolution focus : Vec2) (cfg : Config)
    (uv : Vec2) : ℚ :=
  let d := rawDist O resolution focus uv
  if 0 < cfg.edgeWarpAmplitude ∧ 0 < cfg.edgeWarpFrequency ∧ 0 < d then
    let fb := focusBottomUp resolution focus
    let angle := O.atan2Q (uv.2 * resolution.2 - fb.2) (uv.1 * resolution.1 - fb.1)
    d + O.sinQ (angle * cfg.edgeWarpFrequency) * cfg.edgeWarpAmplitude
  else d

/-- Modelled from the spec: step 4, t = clamp(dist / circleRadius, 0, 1). -/
def fisheyeT (circleRadius d : ℚ) : ℚ := clampQ (d / circleRadius) 0 1

/-- Modelled from the spec: step 4, effective fisheye strength
s = fisheyeStrength * (1 - t^2), the quadratic falloff from center to edge. -/
def fisheyeS (fisheyeStrength circleRadius d : ℚ) : ℚ :=
  fisheyeStrength * (1 - fisheyeT circleRadius d ^ 2)

/-- Modelled from the spec: the FocusPoint converted to UV space (the
pixel-space bottom-up focus divided by the resolution). -/
def focusUvOf (resolution focus : Vec2) : Vec2 :=
  ((focusBottomUp resolution focus).1 / resolution.1,
   (focusBottomUp resolution focus).2 / resolution.2)

/-- Modelled from the spec: step 4, the sharp-image sampling UV.  Defaults
to the pixel's own UV; when fisheyeStrength > 0 and the unwarped dist is
below circleRadius, the vector from the FocusPoint to the UV is scaled by
(1 - s), pulling the sample toward the FocusPoint. -/
def sampleUv (O : TrigOracle) (resolution focus : Vec2) (cfg : Config)
    (uv : Vec2) : Vec2 :=
  let d := rawDist O resolution focus uv
  if 0 < cfg.fisheyeStrength ∧ d < cfg.circleRadius then
    let f := focusUvOf resolution focus
    let s := fisheyeS cfg.fisheyeStrength cfg.circleRadius d
    (f.1 + (uv.1 - f.1) * (1 - s), f.2 + (uv.2 - f.2) * (1 - s))
  else uv

/-- Modelled from the spec: innerEdge = circleRadius - blurRadius. -/
def innerEdge (cfg : Config) : ℚ := cfg.circleRadius - cfg.blurRadius

/-- Modelled from the spec: outerEdge = circleRadius + blurRadius. -/
def outerEdge (cfg : Config) : ℚ := cfg.circleRadius + cfg.blurRadius

/-- Modelled from the spec: step 5 of the missing always-on shader variant.
Classify the warped distance: the border band outerEdge < dist ≤
outerEdge + borderThickness gets the flat border color; dist ≤ outerEdge
blends the sharp and pixelated colors with smoothstep(innerEdge, outerEdge,
dist) as the mix factor; everything further out is fully pixelated. -/
def shade (O : TrigOracle) (src : Image) (resolution focus : Vec2)
    (cfg : Config) (uv : Vec2) : Vec4 :=
  let pixelatedColor := src (snappedUv cfg.granularity resolution uv)
  let sharpColor := src (sampleUv O resolution focus cfg uv)
  let d := warpedDist O resolution focus cfg uv
  if outerEdge cfg < d ∧ d ≤ outerEdge cfg + cfg.borderThickness then
    cfg.borderColor
  else if d ≤ outerEdge cfg then
    mixColor sharpColor pixelatedColor (smoothstepQ (innerEdge cfg) (outerEdge cfg) d)
  else pixelatedColor

/-- Modelled from the spec: the no-warp code path of the same shader, the
spec's reference behavior for a disabled edge warp: identical to shade
except that step 3 is skipped and the raw distance classifies the bands. -/
def shadeNoWarp (O : TrigOracle) (src : Image) (resolution focus : Vec2)
    (cfg : Config) (uv : Vec2) : Vec4 :=
  let pixelatedColor := src (snappedUv cfg.granularity resolution uv)
  let sharpColor := src (sampleUv O resolution focus cfg uv)
  let d := rawDist O resolution focus uv
  if outerEdge cfg < d ∧ d ≤ outerEdge cfg + cfg.borderThickness then
    cfg.borderColor
  else if d ≤ outerEdge cfg then
    mixColor sharpColor pixelatedColor (smoothstepQ (innerEdge cfg) (outerEdge cfg) d)
  else pixelatedColor

/-- Modelled from the spec: the fixed border thickness of the richest
variant, "a small constant, e.g. 2 px". -/
def borderThicknessDefault : ℚ := 2

/-- Modelled from the spec: the flat border color of the richest variant
(a light grey). -/
def borderColorDefault : Vec4 := ⟨9 / 10, 9 / 10, 9 / 10, 1⟩

end MaskShader

namespace Scene

/-- JavaScript's (window.devicePixelRatio || 1): a missing value or the
falsy 0 fall back to 1; any other number passes through. -/
def jsOr1 (q : Option ℚ) : ℚ :=
  match q with
  | none => 1
  | some v => if v = 0 then 1 else v

/-- The dpr constant of Scene.tsx:
Math.max(1, Math.min(2, window.devicePixelRatio || 1)) when a window
exists, and 1 otherwise. -/
def computeDpr (hasWindow : Bool) (raw : Option ℚ) : ℚ :=
  if hasWindow then max 1 (min 2 (jsOr1 raw)) else 1

/-- A DOMRect of the canvas container, as used by getBoundingClientRect. -/
structure Rect where
  left : ℚ
  top : ℚ
  width : ℚ
  height : ℚ
deriving DecidableEq, Repr

/-- The React state of MyScene that the pointer tracker mutates:
mousePosition (the FocusPoint), isMobile, isDraggingMask, the
hasDraggedInCurrentMobileSession ref and the prevIsMobileState ref. -/
structure State where
  mousePosition : Vec2
  isMobile : Bool
  isDraggingMask : Bool
  hasDraggedInCurrentMobileSession : Bool
  prevIsMobileState : Bool
deriving DecidableEq, Repr

/-- getShaderCircleRadius of Scene.tsx: 110 * dpr on mobile, 135 * dpr on
desktop. -/
def getShaderCircleRadius (dpr : ℚ) (isMobile : Bool) : ℚ :=
  if isMobile then 110 * dpr else 135 * dpr

/-- The centering target of effect 3: (rect.width / 2 * dpr,
rect.height / 2 * dpr), the geometric center of the render surface in
device pixels. -/
def centerOf (dpr : ℚ) (rect : Rect) : Vec2 :=
  ((rect.width / 2) * dpr, (rect.height / 2) * dpr)

/-- handleMouseMove of Scene.tsx: on desktop, move the FocusPoint to the
event position relative to the container, scaled by dpr; no-op on mobile. -/
def handleMouseMove (dpr : ℚ) (rect : Rect) (s : State)
    (clientX clientY : ℚ) : State :=
  if ¬ s.isMobile then
    { s with mousePosition := ((clientX - rect.left) * dpr, (clientY - rect.top) * dpr) }
  else s

/-- handleTouchStart of Scene.tsx: on mobile, compute the touch point in
device pixels and its distance to the current FocusPoint; when the distance
is at most getShaderCircleRadius, start a drag, move the FocusPoint to the
touch point and set the hasDraggedInCurrentMobileSession ref; otherwise
ignore the touch. -/
def handleTouchStart (O : TrigOracle) (dpr : ℚ) (rect : Rect) (s : State)
    (clientX clientY : ℚ) : State :=
  if s.isMobile then
    let touchX := (clientX - rect.left) * dpr
    let touchY := (clientY - rect.top) * dpr
    let distance := O.sqrtQ ((touchX - s.mousePosition.1) ^ 2 +
                             (touchY - s.mousePosition.2) ^ 2)
    let shaderRadius := getShaderCircleRadius dpr s.isMobile
    if distance ≤ shaderRadius then
      { s with isDraggingMask := true,
               mousePosition := (touchX, touchY),
               hasDraggedInCurrentMobileSession := true }
    else s
  else s

/-- handleTouchMove of Scene.tsx: while a mobile drag is in progress, the
FocusPoint tracks the touch point. -/
def handleTouchMove (dpr : ℚ) (rect : Rect) (s : State)
    (clientX clientY : ℚ) : State :=
  if s.isMobile ∧ s.isDraggingMask then
    { s with mousePosition := ((clientX - rect.left) * dpr, (clientY - rect.top) * dpr) }
  else s

/-- handleTouchEnd / handleTouchCancel of Scene.tsx: on mobile, end the
drag. -/
def handleTouchEnd (s : State) : State :=
  if s.isMobile then { s with isDraggingMask := false } else s

/-- The effect pass that React runs after a state change: effect 2 resets
the hasDraggedInCurrentMobileSession ref on a desktop-to-mobile transition
and records the current isMobile in prevIsMobileState; effect 3 re-centers
the FocusPoint on the render surface whenever the mode is mobile, no drag
is in progress and no drag has happened in this mobile session. -/
def runEffects (dpr : ℚ) (rect : Rect) (s : State) : State :=
  let s2 :=
    if s.isMobile ∧ ¬ s.prevIsMobileState then
      { s with hasDraggedInCurrentMobileSession := false,
               prevIsMobileState := s.isMobile }
    else { s with prevIsMobileState := s.isMobile }
  if s2.isMobile ∧ ¬ s2.hasDraggedInCurrentMobileSession ∧ ¬ s2.isDraggingMask then
    { s2 with mousePosition := centerOf dpr rect }
  else s2

/-- The input events Scene.tsx listens for.  A resize carries the new
window.innerWidth; pointer events carry client coordinates. -/
inductive Event where
  | resize (innerWidth : ℚ)
  | mouseMove (clientX clientY : ℚ)
  | touchStart (clientX clientY : ℚ)
  | touchMove (clientX clientY : ℚ)
  | touchEnd
deriving DecidableEq, Repr

/-- One event-processing step of the running scene: the handler runs, and
when it actually changed the state, React re-renders and the effects run
(an unchanged state triggers no effect re-evaluation, matching the
dependency arrays of Scene.tsx: no effect lists the container rect, so a
resize that does not toggle isMobile re-runs nothing). -/
def step (O : TrigOracle) (dpr : ℚ) (rect : Rect) (s : State)
    (e : Event) : State :=
  match e with
  | .resize w =>
      let m : Bool := if w ≤ 768 then true else false
      if m = s.isMobile then s else runEffects dpr rect { s with isMobile := m }
  | .mouseMove cx cy =>
      let s2 := handleMouseMove dpr rect s cx cy
      if s2 = s then s else runEffects dpr rect s2
  | .touchStart cx cy =>
      let s2 := handleTouchStart O dpr rect s cx cy
      if s2 = s then s else runEffects dpr rect s2
  | .touchMove cx cy =>
      let s2 := handleTouchMove dpr rect s cx cy
      if s2 = s then s else runEffects dpr rect s2
  | .touchEnd =>
      let s2 := handleTouchEnd s
      if s2 = s then s else runEffects dpr rect s2

/-- The state of the first render: FocusPoint (0,0), desktop mode, no drag,
refs false. -/
def initialState : State :=
  { mousePosition := (0, 0), isMobile := false, isDraggingMask := false,
    hasDraggedInCurrentMobileSession := false, prevIsMobileState := false }

/-- Mounting the component: effect 1 performs its initial resize check
against the current window.innerWidth (the effects then run when that
check flips isMobile, exactly as for a later resize event). -/
def mount (O : TrigOracle) (dpr : ℚ) (rect : Rect) (innerWidth : ℚ) : State :=
  step O dpr rect initialState (.resize innerWidth)

/-- Process a list of events under a fixed container rect. -/
def run (O : TrigOracle) (dpr : ℚ) (rect : Rect) (s : State)
    (es : List Event) : State :=
  es.foldl (step O dpr rect) s

/-- The MaskConfig the newest Scene.tsx wiring supplies to the effect:
granularity 15 * dpr, circleRadius 110 * dpr on mobile and 135 * dpr on
desktop, blurRadius 0, fisheyeStrength 0.05, edgeWarpAmplitude 3 * dpr on
mobile and 6 * dpr on desktop, edgeWarpFrequency 0; the border data are the
shader-internal constants. -/
def sceneConfig (dpr : ℚ) (isMobile : Bool) : MaskShader.Config :=
  { granularity := 15 * dpr
    circleRadius := if isMobile then 110 * dpr else 135 * dpr
    blurRadius := 0
    fisheyeStrength := 1 / 20
    edgeWarpAmplitude := if isMobile then 3 * dpr else 6 * dpr
    edgeWarpFrequency := 0
    borderThickness := MaskShader.borderThicknessDefault
    borderColor := MaskShader.borderColorDefault }

/-- Modelled from the spec: the newest wiring runs the always-on mask
shader variant (missing from the sources) with the sceneConfig values; the
Model Presenter still raises hover events, but Scene.tsx passes no
isModelHovered prop, so the hover flag reaches no uniform and the per-pixel
output cannot depend on it. -/
def newestWiring (hover : Bool) (O : TrigOracle) (src : Image)
    (resolution : Vec2) (dpr : ℚ) (isMobile : Bool) (focus uv : Vec2) : Vec4 :=
  MaskShader.shade O src resolution focus (sceneConfig dpr isMobile) uv

end Scene

/-- A constant texture. -/
def constImage (c : Vec4) : Image := fun _ => c

/-- An oracle with a given square-root table and trivial trigonometry,
for evaluating the embedding at concrete pixels. -/
def sqrtOracle (f : ℚ → ℚ) : TrigOracle := ⟨f, fun _ => 0, fun _ _ => 0⟩

/-- An all-black test texture. -/
def srcBlack : Image := constImage ⟨0, 0, 0, 1⟩

/-- A test texture whose color encodes the sampled UV. -/
def uvImage : Image := fun p => ⟨p.1, p.2, 0, 1⟩

/-- A concrete mask configuration: radius 10, no blur, no fisheye, no warp,
border thickness 2, white border. -/
def bandCfg : MaskShader.Config := ⟨10, 10, 0, 0, 0, 0, 2, ⟨1, 1, 1, 1⟩⟩

/-- A concrete mask configuration with the desktop fisheye values. -/
def fisheyeCfg : MaskShader.Config := ⟨15, 135, 0, 1 / 20, 0, 0, 2, ⟨1, 1, 1, 1⟩⟩

/-- Square-root tables for the concrete pixels used below. -/
def oracle10 : TrigOracle := sqrtOracle fun q => if q = 100 then 10 else 0

/-- Square root that knows 121 = 11 ^ 2. -/
def oracle11 : TrigOracle := sqrtOracle fun q => if q = 121 then 11 else 0

/-- Square root that knows 144 = 12 ^ 2. -/
def oracle12 : TrigOracle := sqrtOracle fun q => if q = 144 then 12 else 0

/-- Square root that knows 196 = 14 ^ 2. -/
def oracle14 : TrigOracle := sqrtOracle fun q => if q = 196 then 14 else 0

/-- Square root that knows 18225 = 135 ^ 2. -/
def oracle135 : TrigOracle := sqrtOracle fun q => if q = 18225 then 135 else 0

/-- Square root for the two touch scenarios: distances 50 and 200. -/
def touchOracle : TrigOracle :=
  sqrtOracle fun q => if q = 2500 then 50 else if q = 40000 then 200 else 0

/-- Trivial oracle for runs that never touch the tables. -/
def zeroOracle : TrigOracle := sqrtOracle fun _ => 0

/-- A concrete container rect. -/
def touchRect : Scene.Rect := ⟨0, 0, 800, 600⟩

/-- A concrete mobile state with the FocusPoint at the origin. -/
def touchState : Scene.State := ⟨(0, 0), true, false, false, true⟩

/-- A concrete 400 x 800 container rect. -/
def rectA : Scene.Rect := ⟨0, 0, 400, 800⟩

/-- A concrete 450 x 700 container rect, a resized surface that stays in
mobile mode. -/
def rectB : Scene.Rect := ⟨0, 0, 450, 700⟩

theorem smoothstepQ_eq_zero_of_le {e0 e1 x : ℚ} (hx : x ≤ e0) (he : e0 ≤ e1) :
    smoothstepQ e0 e1 x = 0 := by
  have hq : (x - e0) / (e1 - e0) ≤ 0 :=
    div_nonpos_iff.2 (Or.inr ⟨sub_nonpos.2 hx, sub_nonneg.2 he⟩)
  unfold smoothstepQ clampQ
  rw [min_eq_right (hq.trans zero_le_one), max_eq_left hq]
  ring

theorem mixColor_zero (a b : Vec4) : mixColor a b 0 = a := by
  cases a; cases b; simp [mixColor]

/-- C10: the device-pixel-ratio factor of Scene.tsx equals
max(1, min(2, devicePixelRatio or 1)) and always lies in the interval
[1, 2], for every raw value including 0, a missing value, values below 1
and values above 2. -/
theorem C10_dpr_clamped (hasWindow : Bool) (raw : Option ℚ) :
    Scene.computeDpr true raw = max 1 (min 2 (Scene.jsOr1 raw)) ∧
    1 ≤ Scene.computeDpr hasWindow raw ∧
    Scene.computeDpr hasWindow raw ≤ 2 ∧
    Scene.computeDpr true (some 0) = 1 ∧
    Scene.computeDpr true none = 1 ∧
    Scene.computeDpr true (some (1 / 2)) = 1 ∧
    Scene.computeDpr true (some 3) = 2 := by
  refine ⟨rfl, ?_, ?_, by norm_num [Scene.computeDpr, Scene.jsOr1],
    by norm_num [Scene.computeDpr, Scene.jsOr1],
    by norm_num [Scene.computeDpr, Scene.jsOr1],
    by norm_num [Scene.computeDpr, Scene.jsOr1]⟩
  · cases hasWindow with
    | false => simp [Scene.computeDpr]
    | true =>
        simp only [Scene.computeDpr, if_pos]
        exact le_max_left 1 _
  · cases hasWindow with
    | false => simp [Scene.computeDpr]
    | true =>
        simp only [Scene.computeDpr, if_pos]
        exact max_le (by norm_num) (min_le_left _ _)

/-- C2: in the always-on shader variant (modelled from the spec), every
pixel whose warped distance lies in the band
outerEdge < dist ≤ outerEdge + borderThickness receives the flat border
color, and every pixel with dist ≤ outerEdge takes the blend branch
instead: the border band lies strictly outside outerEdge, never inside the
effect circle. -/
theorem C2_border_band_outside (O : TrigOracle) (src : Image)
    (resolution focus : Vec2) (cfg : MaskShader.Config) (uv : Vec2) :
    (MaskShader.outerEdge cfg < MaskShader.warpedDist O resolution focus cfg uv →
     MaskShader.warpedDist O resolution focus cfg uv ≤
       MaskShader.outerEdge cfg + cfg.borderThickness →
     MaskShader.shade O src resolution focus cfg uv = cfg.borderColor) ∧
    (MaskShader.warpedDist O resolution focus cfg uv ≤ MaskShader.outerEdge cfg →
     MaskShader.shade O src resolution focus cfg uv =
       mixColor (src (MaskShader.sampleUv O resolution focus cfg uv))
         (src (MaskShader.snappedUv cfg.granularity resolution uv))
         (smoothstepQ (MaskShader.innerEdge cfg) (MaskShader.outerEdge cfg)
           (MaskShader.warpedDist O resolution focus cfg uv))) := by
  constructor
  · intro h1 h2
    unfold MaskShader.shade
    rw [if_pos ⟨h1, h2⟩]
  · intro h
    unfold MaskShader.shade
    rw [if_neg (fun hc => absurd hc.1 (not_lt.2 h)), if_pos h]

/-- C2 witness: a concrete pixel at warped distance 11 with outerEdge 10
and border thickness 2 receives the border color. -/
theorem C2_witness :
    MaskShader.shade oracle11 srcBlack (100, 100) (0, 100) bandCfg (11 / 100, 0) =
      bandCfg.borderColor :=
  (C2_border_band_outside oracle11 srcBlack (100, 100) (0, 100) bandCfg
    (11 / 100, 0)).1
    (by norm_num [MaskShader.outerEdge, MaskShader.warpedDist, MaskShader.rawDist,
      MaskShader.focusBottomUp, oracle11, sqrtOracle, bandCfg])
    (by norm_num [MaskShader.outerEdge, MaskShader.warpedDist, MaskShader.rawDist,
      MaskShader.focusBottomUp, oracle11, sqrtOracle, bandCfg])

/-- C9: with edgeWarpAmplitude = 0 the always-on shader variant (modelled
from the spec) produces, pixel for pixel, the output of the no-warp code
path, whatever values the edge-warp parameters are given there: the final
color does not depend on the edge-warp parameters when the amplitude is
zero. -/
theorem C9_warp_zero_noop (O : TrigOracle) (src : Image)
    (resolution focus : Vec2) (cfg : MaskShader.Config) (uv : Vec2) (a f : ℚ)
    (h : cfg.edgeWarpAmplitude = 0) :
    MaskShader.shade O src resolution focus cfg uv =
      MaskShader.shadeNoWarp O src resolution focus
        { cfg with edgeWarpAmplitude := a, edgeWarpFrequency := f } uv := by
  obtain ⟨g, cr, br, fs, amp, freq, th, bc⟩ := cfg
  simp only at h
  subst h
  simp [MaskShader.shade, MaskShader.shadeNoWarp, MaskShader.warpedDist,
    MaskShader.sampleUv, MaskShader.snappedUv, MaskShader.innerEdge,
    MaskShader.outerEdge, lt_irrefl]

/-- C9 witness: the concrete band configuration with zero amplitude agrees
with the no-warp path carrying arbitrary warp parameters 5 and 3. -/
theorem C9_witness :
    MaskShader.shade oracle12 srcBlack (100, 100) (0, 100) bandCfg (12 / 100, 0) =
      MaskShader.shadeNoWarp oracle12 srcBlack (100, 100) (0, 100)
        { bandCfg with edgeWarpAmplitude := 5, edgeWarpFrequency := 3 }
        (12 / 100, 0) :=
  C9_warp_zero_noop oracle12 srcBlack (100, 100) (0, 100) bandCfg
    (12 / 100, 0) 5 3 (by norm_num [bandCfg])

/-- C3: in the always-on shader variant (modelled from the spec), every
pixel whose warped distance is at most innerEdge = circleRadius -
blurRadius, when the fisheye is disabled or the pixel's unwarped distance
is outside the fisheye radius, receives the unmodified source color at the
pixel's own UV: no border color and no pixelation at or below innerEdge. -/
theorem C3_inner_region_sharp (O : TrigOracle) (src : Image)
    (resolution focus : Vec2) (cfg : MaskShader.Config) (uv : Vec2)
    (hbr : 0 ≤ cfg.blurRadius)
    (hd : MaskShader.warpedDist O resolution focus cfg uv ≤ MaskShader.innerEdge cfg)
    (hfs : cfg.fisheyeStrength = 0 ∨
      cfg.circleRadius ≤ MaskShader.rawDist O resolution focus uv) :
    MaskShader.shade O src resolution focus cfg uv = src uv := by
  have hio : MaskShader.innerEdge cfg ≤ MaskShader.outerEdge cfg := by
    unfold MaskShader.innerEdge MaskShader.outerEdge; linarith
  have hdo := le_trans hd hio
  have hsample : MaskShader.sampleUv O resolution focus cfg uv = uv := by
    simp only [MaskShader.sampleUv]
    rw [if_neg]
    rintro ⟨h1, h2⟩
    rcases hfs with h | h
    · rw [h] at h1; exact lt_irrefl 0 h1
    · exact absurd h2 (not_lt.2 h)
  simp only [MaskShader.shade]
  rw [if_neg (fun hc => absurd hc.1 (not_lt.2 hdo)), if_pos hdo,
    smoothstepQ_eq_zero_of_le hd hio, mixColor_zero, hsample]

/-- C3 witness: a concrete pixel at distance 0 from the focus with
circleRadius 10, blurRadius 0 and fisheye disabled gets its own source
color. -/
theorem C3_witness :
    MaskShader.shade oracle11 uvImage (100, 100) (0, 100) bandCfg (5 / 100, 0) =
      uvImage (5 / 100, 0) :=
  C3_inner_region_sharp oracle11 uvImage (100, 100) (0, 100) bandCfg (5 / 100, 0)
    (by norm_num [bandCfg])
    (by norm_num [MaskShader.warpedDist, MaskShader.rawDist,
      MaskShader.focusBottomUp, MaskShader.innerEdge, oracle11, sqrtOracle, bandCfg])
    (Or.inl (by norm_num [bandCfg]))

/-- C4: in the always-on shader variant (modelled from the spec), for every
configuration with fisheyeStrength > 0 the effective fisheye strength at
distance 0 equals the full fisheyeStrength, the sampling UV at distance
exactly circleRadius is the pixel's own UV (zero displacement), the
strength follows the quadratic falloff s = fisheyeStrength *
(1 - (dist/circleRadius)^2) on 0 ≤ dist < circleRadius, and inside the
radius the sampling UV is the pixel's UV pulled toward the focus point by
the fraction s of the separation vector. -/
theorem C4_fisheye_falloff (O : TrigOracle) (resolution focus : Vec2)
    (cfg : MaskShader.Config) (uv : Vec2) (hfs : 0 < cfg.fisheyeStrength) :
    MaskShader.fisheyeS cfg.fisheyeStrength cfg.circleRadius 0 = cfg.fisheyeStrength ∧
    (MaskShader.rawDist O resolution focus uv = cfg.circleRadius →
      MaskShader.sampleUv O resolution focus cfg uv = uv) ∧
    (∀ d : ℚ, 0 ≤ d → d < cfg.circleRadius →
      MaskShader.fisheyeS cfg.fisheyeStrength cfg.circleRadius d =
        cfg.fisheyeStrength * (1 - (d / cfg.circleRadius) ^ 2)) ∧
    (MaskShader.rawDist O resolution focus uv < cfg.circleRadius →
      MaskShader.sampleUv O resolution focus cfg uv =
        (uv.1 + MaskShader.fisheyeS cfg.fisheyeStrength cfg.circleRadius
            (MaskShader.rawDist O resolution focus uv) *
            ((MaskShader.focusUvOf resolution focus).1 - uv.1),
         uv.2 + MaskShader.fisheyeS cfg.fisheyeStrength cfg.circleRadius
            (MaskShader.rawDist O resolution focus uv) *
            ((MaskShader.focusUvOf resolution focus).2 - uv.2))) := by
  refine ⟨?_, ?_, ?_, ?_⟩
  · unfold MaskShader.fisheyeS MaskShader.fisheyeT clampQ
    rw [zero_div, min_eq_right zero_le_one, max_self]
    ring
  · intro h
    simp only [MaskShader.sampleUv]
    rw [if_neg]
    rintro ⟨-, h2⟩
    rw [h] at h2
    exact lt_irrefl _ h2
  · intro d hd0 hdc
    have hcr : 0 < cfg.circleRadius := lt_of_le_of_lt hd0 hdc
    unfold MaskShader.fisheyeS MaskShader.fisheyeT clampQ
    rw [min_eq_right ((div_lt_one hcr).2 hdc).le,
      max_eq_right (div_nonneg hd0 hcr.le)]
  · intro h
    simp only [MaskShader.sampleUv]
    rw [if_pos ⟨hfs, h⟩]
    simp only [Prod.mk.injEq]
    constructor <;> ring

/-- C4 witness: with fisheyeStrength 1/20 and circleRadius 135, the
falloff at distance 27 evaluates to the quadratic formula, and a concrete
pixel at distance exactly 135 is sampled at its own UV. -/
theorem C4_witness :
    MaskShader.fisheyeS (1 / 20) 135 27 = 1 / 20 * (1 - (27 / 135 : ℚ) ^ 2) ∧
    MaskShader.sampleUv oracle135 (1000, 1000) (0, 1000) fisheyeCfg
      (135 / 1000, 0) = (135 / 1000, 0) := by
  constructor
  · exact (C4_fisheye_falloff oracle135 (1000, 1000) (0, 1000) fisheyeCfg
      (135 / 1000, 0) (by norm_num [fisheyeCfg])).2.2.1 27 (by norm_num)
      (by norm_num [fisheyeCfg])
  · exact (C4_fisheye_falloff oracle135 (1000, 1000) (0, 1000) fisheyeCfg
      (135 / 1000, 0) (by norm_num [fisheyeCfg])).2.1
      (by norm_num [MaskShader.rawDist, MaskShader.focusBottomUp, oracle135,
        sqrtOracle, fisheyeCfg])

/-- C1: under the newest wiring (Scene.tsx props with the always-on shader
variant modelled from the spec), the per-pixel output is independent of the
Model Presenter hover flag, and every pixel whose distance to the focus
point is below the configured circleRadius (hence outside the border band)
receives the sharp source sample instead of the pixelated one, for every
device-pixel ratio, input mode, focus point and source image. -/
theorem C1_mask_always_active (hover hover2 : Bool) (O : TrigOracle)
    (src : Image) (resolution : Vec2) (dpr : ℚ) (isMobile : Bool)
    (focus uv : Vec2) :
    Scene.newestWiring hover O src resolution dpr isMobile focus uv =
      Scene.newestWiring hover2 O src resolution dpr isMobile focus uv ∧
    (MaskShader.rawDist O resolution focus uv <
        (Scene.sceneConfig dpr isMobile).circleRadius →
      Scene.newestWiring hover O src resolution dpr isMobile focus uv =
        src (MaskShader.sampleUv O resolution focus (Scene.sceneConfig dpr isMobile) uv)) := by
  refine ⟨rfl, fun h => ?_⟩
  have hfreq : (Scene.sceneConfig dpr isMobile).edgeWarpFrequency = 0 := rfl
  have hblur : (Scene.sceneConfig dpr isMobile).blurRadius = 0 := rfl
  have hw : MaskShader.warpedDist O resolution focus (Scene.sceneConfig dpr isMobile) uv
      = MaskShader.rawDist O resolution focus uv := by
    simp only [MaskShader.warpedDist]
    rw [if_neg]
    rintro ⟨-, h2, -⟩
    rw [hfreq] at h2
    exact lt_irrefl 0 h2
  have houter : MaskShader.outerEdge (Scene.sceneConfig dpr isMobile)
      = (Scene.sceneConfig dpr isMobile).circleRadius := by
    unfold MaskShader.outerEdge; rw [hblur, add_zero]
  have hinner : MaskShader.innerEdge (Scene.sceneConfig dpr isMobile)
      = (Scene.sceneConfig dpr isMobile).circleRadius := by
    unfold MaskShader.innerEdge; rw [hblur, sub_zero]
  unfold Scene.newestWiring
  simp only [MaskShader.shade]
  rw [hw, houter, hinner,
    if_neg (fun hc => absurd hc.1 (not_lt.2 h.le)), if_pos h.le,
    smoothstepQ_eq_zero_of_le h.le le_rfl, mixColor_zero]

/-- C1 witness: a concrete pixel at distance 10 from the focus under the
desktop configuration (circleRadius 135) receives the sharp sample, with
the hover flag set. -/
theorem C1_witness :
    Scene.newestWiring true oracle10 srcBlack (100, 100) 1 false (0, 100)
      (1 / 10, 0) =
      srcBlack (MaskShader.sampleUv oracle10 (100, 100) (0, 100)
        (Scene.sceneConfig 1 false) (1 / 10, 0)) :=
  (C1_mask_always_active true false oracle10 srcBlack (100, 100) 1 false
    (0, 100) (1 / 10, 0)).2
    (by norm_num [MaskShader.rawDist, MaskShader.focusBottomUp, oracle10,
      sqrtOracle, Scene.sceneConfig])

theorem cellSnapBounds (c v : ℚ) (hc : 0 < c) :
    c * floorQ (v / c) ≤ v ∧ v < c * floorQ (v / c) + c := by
  constructor
  · calc c * floorQ (v / c) ≤ c * (v / c) :=
          mul_le_mul_of_nonneg_left (Int.floor_le _) hc.le
      _ = v := by rw [mul_comm, div_mul_cancel₀ v hc.ne']
  · calc v < ((⌊v / c⌋ : ℚ) + 1) * c := (div_lt_iff hc).1 (Int.lt_floor_add_one _)
      _ = c * floorQ (v / c) + c := by unfold floorQ; ring

/-- C8: the legacy shader's pixelated color comes from snapping the UV to
the grid of cell size granularity / resolution with floor (the lower-left
corner of the containing cell, which lies at most one cell below and left
of the UV) and sampling the source there; two UVs in the same cell yield
the same pixelated color, and the non-hovered shader output is exactly the
source sampled at the snapped UV. -/
theorem C8_pixelation_grid (g : ℚ) (resolution : Vec2) (uv uv2 : Vec2)
    (buf : Image) :
    (PixelationMaskEffect.pixelatedUv g resolution uv =
      ((g / resolution.1) * floorQ (uv.1 / (g / resolution.1)),
       (g / resolution.2) * floorQ (uv.2 / (g / resolution.2)))) ∧
    (floorQ (uv.1 / (g / resolution.1)) = floorQ (uv2.1 / (g / resolution.1)) →
     floorQ (uv.2 / (g / resolution.2)) = floorQ (uv2.2 / (g / resolution.2)) →
     buf (PixelationMaskEffect.pixelatedUv g resolution uv) =
       buf (PixelationMaskEffect.pixelatedUv g resolution uv2)) ∧
    (0 < g / resolution.1 → 0 < g / resolution.2 →
      ((PixelationMaskEffect.pixelatedUv g resolution uv).1 ≤ uv.1 ∧
       uv.1 < (PixelationMaskEffect.pixelatedUv g resolution uv).1 + g / resolution.1) ∧
      ((PixelationMaskEffect.pixelatedUv g resolution uv).2 ≤ uv.2 ∧
       uv.2 < (PixelationMaskEffect.pixelatedUv g resolution uv).2 + g / resolution.2)) ∧
    (∀ (O : TrigOracle) (u : PixelationMaskEffect.Uniforms),
      u.isModelHovered ≤ 1 / 2 →
      PixelationMaskEffect.mainImage O buf resolution u uv =
        buf (PixelationMaskEffect.pixelatedUv u.granularity resolution uv)) := by
  refine ⟨rfl, ?_, ?_, ?_⟩
  · intro h1 h2
    simp only [PixelationMaskEffect.pixelatedUv]
    rw [h1, h2]
  · intro hc1 hc2
    exact ⟨cellSnapBounds _ _ hc1, cellSnapBounds _ _ hc2⟩
  · intro O u h
    simp only [PixelationMaskEffect.mainImage]
    rw [if_neg (not_lt.2 h)]

/-- C8 witness: the UVs (0.12, 0.3) and (0.19, 0.33) share the grid cell
for granularity 10 on a 100 x 200 surface and get the same pixelated
color; the snapped corner lies at or below the UV. -/
theorem C8_witness :
    uvImage (PixelationMaskEffect.pixelatedUv 10 (100, 200) (12 / 100, 3 / 10)) =
      uvImage (PixelationMaskEffect.pixelatedUv 10 (100, 200) (19 / 100, 33 / 100)) ∧
    (PixelationMaskEffect.pixelatedUv 10 (100, 200) (12 / 100, 3 / 10)).1 ≤ 12 / 100 :=
  ⟨(C8_pixelation_grid 10 (100, 200) (12 / 100, 3 / 10) (19 / 100, 33 / 100)
      uvImage).2.1 (by norm_num [floorQ]) (by norm_num [floorQ]),
   ((C8_pixelation_grid 10 (100, 200) (12 / 100, 3 / 10) (19 / 100, 33 / 100)
      uvImage).2.2.1 (by norm_num) (by norm_num)).1.1⟩

/-- C7 counterexample: in the always-on variant (modelled from the spec),
a pixel at warped distance exactly outerEdge + borderThickness satisfies
dist ≥ outerEdge + borderThickness but receives the border color, not the
pixelated color: the claim's non-strict bound fails at the band's outer
boundary. -/
theorem C7_counterexample :
    MaskShader.outerEdge bandCfg + bandCfg.borderThickness ≤
      MaskShader.warpedDist oracle12 (100, 100) (0, 100) bandCfg (12 / 100, 0) ∧
    MaskShader.shade oracle12 srcBlack (100, 100) (0, 100) bandCfg (12 / 100, 0) ≠
      srcBlack (MaskShader.snappedUv bandCfg.granularity (100, 100) (12 / 100, 0)) := by
  constructor
  · norm_num [MaskShader.outerEdge, MaskShader.warpedDist, MaskShader.rawDist,
      MaskShader.focusBottomUp, oracle12, sqrtOracle, bandCfg]
  · norm_num [MaskShader.shade, MaskShader.warpedDist, MaskShader.rawDist,
      MaskShader.focusBottomUp, MaskShader.outerEdge, MaskShader.innerEdge,
      oracle12, sqrtOracle, bandCfg, srcBlack, constImage, Vec4.mk.injEq]

/-- C7 (amended): every pixel strictly beyond outerEdge + borderThickness
receives exactly the pixelated color in the always-on variant (modelled
from the spec, where the border band includes its outer boundary), and in
the hover-gated legacy variant every pixel at distance at least
circleRadius + borderWidth is pixelated for every hover state. -/
theorem C7_pixelated_outside :
    (∀ (O : TrigOracle) (buf : Image) (resolution : Vec2)
        (u : PixelationMaskEffect.Uniforms) (uv : Vec2),
      u.circleRadius + PixelationMaskEffect.borderWidth ≤
        PixelationMaskEffect.distPixels O resolution u.mousePosition uv →
      PixelationMaskEffect.mainImage O buf resolution u uv =
        buf (PixelationMaskEffect.pixelatedUv u.granularity resolution uv)) ∧
    (∀ (O : TrigOracle) (src : Image) (resolution focus : Vec2)
        (cfg : MaskShader.Config) (uv : Vec2),
      0 ≤ cfg.borderThickness →
      MaskShader.outerEdge cfg + cfg.borderThickness <
        MaskShader.warpedDist O resolution focus cfg uv →
      MaskShader.shade O src resolution focus cfg uv =
        src (MaskShader.snappedUv cfg.granularity resolution uv)) := by
  constructor
  · intro O buf resolution u uv h
    have h1 : ¬ PixelationMaskEffect.distPixels O resolution u.mousePosition uv
        < u.circleRadius := by
      have h2 : u.circleRadius < u.circleRadius + PixelationMaskEffect.borderWidth := by
        unfold PixelationMaskEffect.borderWidth; linarith
      exact not_lt.2 (le_trans h2.le h)
    simp only [PixelationMaskEffect.mainImage]
    by_cases hov : u.isModelHovered > 1 / 2
    · rw [if_pos hov, if_neg (fun hc => h1 hc.1.2), if_neg h1]
    · rw [if_neg hov]
  · intro O src resolution focus cfg uv hth h
    have hdo : ¬ MaskShader.warpedDist O resolution focus cfg uv ≤
        MaskShader.outerEdge cfg :=
      not_le.2 (lt_of_le_of_lt (le_add_of_nonneg_right hth) h)
    simp only [MaskShader.shade]
    rw [if_neg (fun hc => absurd hc.2 (not_le.2 h)), if_neg hdo]

/-- C7 witness: a legacy pixel at distance 14 with circleRadius 10 is
pixelated under any hover value, and an always-on pixel at warped distance
14 with outerEdge 10 and border thickness 2 is pixelated. -/
theorem C7_witness :
    PixelationMaskEffect.mainImage oracle14 srcBlack (100, 100)
      ⟨10, (0, 100), 0, 10⟩ (14 / 100, 0) =
      srcBlack (PixelationMaskEffect.pixelatedUv 10 (100, 100) (14 / 100, 0)) ∧
    MaskShader.shade oracle14 srcBlack (100, 100) (0, 100) bandCfg (14 / 100, 0) =
      srcBlack (MaskShader.snappedUv bandCfg.granularity (100, 100) (14 / 100, 0)) :=
  ⟨C7_pixelated_outside.1 oracle14 srcBlack (100, 100) ⟨10, (0, 100), 0, 10⟩
     (14 / 100, 0)
     (by norm_num [PixelationMaskEffect.distPixels,
       PixelationMaskEffect.borderWidth, oracle14, sqrtOracle]),
   C7_pixelated_outside.2 oracle14 srcBlack (100, 100) (0, 100) bandCfg
     (14 / 100, 0) (by norm_num [bandCfg])
     (by norm_num [MaskShader.outerEdge, MaskShader.warpedDist,
       MaskShader.rawDist, MaskShader.focusBottomUp, oracle14, sqrtOracle,
       bandCfg])⟩

/-- C5: on a mobile touch start, when the device-pixel distance from the
touch point to the current FocusPoint is at most the mobile circle radius,
a drag begins, the FocusPoint snaps to the touch point and the
has-dragged flag is set; when the distance exceeds the radius, the touch
is ignored and the whole state (FocusPoint, dragging flag, has-dragged
flag) is unchanged. -/
theorem C5_touch_start (O : TrigOracle) (dpr : ℚ) (rect : Scene.Rect)
    (s : Scene.State) (cx cy : ℚ) (hm : s.isMobile = true) :
    (O.sqrtQ (((cx - rect.left) * dpr - s.mousePosition.1) ^ 2 +
        ((cy - rect.top) * dpr - s.mousePosition.2) ^ 2) ≤
        Scene.getShaderCircleRadius dpr true →
      Scene.handleTouchStart O dpr rect s cx cy =
        { s with isDraggingMask := true,
                 mousePosition := ((cx - rect.left) * dpr, (cy - rect.top) * dpr),
                 hasDraggedInCurrentMobileSession := true }) ∧
    (Scene.getShaderCircleRadius dpr true <
        O.sqrtQ (((cx - rect.left) * dpr - s.mousePosition.1) ^ 2 +
          ((cy - rect.top) * dpr - s.mousePosition.2) ^ 2) →
      Scene.handleTouchStart O dpr rect s cx cy = s) := by
  constructor
  · intro hle
    simp only [Scene.handleTouchStart, hm, if_true]
    rw [if_pos hle]
  · intro hlt
    simp only [Scene.handleTouchStart, hm, if_true]
    rw [if_neg (not_le.2 hlt)]

/-- C5 witness: with radius 110, a touch 50 px from the FocusPoint starts
a drag and snaps the FocusPoint, and a touch 200 px away leaves the state
unchanged. -/
theorem C5_witness :
    Scene.handleTouchStart touchOracle 1 touchRect touchState 50 0 =
      { touchState with isDraggingMask := true,
                        mousePosition := ((50 - touchRect.left) * 1, (0 - touchRect.top) * 1),
                        hasDraggedInCurrentMobileSession := true } ∧
    Scene.handleTouchStart touchOracle 1 touchRect touchState 200 0 = touchState :=
  ⟨(C5_touch_start touchOracle 1 touchRect touchState 50 0 rfl).1
     (by norm_num [touchOracle, sqrtOracle, touchState, touchRect,
       Scene.getShaderCircleRadius]),
   (C5_touch_start touchOracle 1 touchRect touchState 200 0 rfl).2
     (by norm_num [touchOracle, sqrtOracle, touchState, touchRect,
       Scene.getShaderCircleRadius])⟩

theorem runEffects_centers (dpr : ℚ) (rect : Scene.Rect) (s : Scene.State) :
    (Scene.runEffects dpr rect s).isMobile = true →
    (Scene.runEffects dpr rect s).hasDraggedInCurrentMobileSession = false →
    (Scene.runEffects dpr rect s).isDraggingMask = false →
    (Scene.runEffects dpr rect s).mousePosition = Scene.centerOf dpr rect := by
  obtain ⟨pos, mob, drag, hasD, prev⟩ := s
  cases mob <;> cases drag <;> cases hasD <;> cases prev <;>
    simp_all [Scene.runEffects, Scene.centerOf]

theorem step_centers (O : TrigOracle) (dpr : ℚ) (rect : Scene.Rect)
    (s : Scene.State) (e : Scene.Event)
    (ih : s.isMobile = true → s.hasDraggedInCurrentMobileSession = false →
      s.isDraggingMask = false → s.mousePosition = Scene.centerOf dpr rect) :
    (Scene.step O dpr rect s e).isMobile = true →
    (Scene.step O dpr rect s e).hasDraggedInCurrentMobileSession = false →
    (Scene.step O dpr rect s e).isDraggingMask = false →
    (Scene.step O dpr rect s e).mousePosition = Scene.centerOf dpr rect := by
  cases e <;> simp only [Scene.step] <;>
    (repeat
      first
        | exact ih
        | exact runEffects_centers dpr rect _
        | split)

theorem run_centers (O : TrigOracle) (dpr : ℚ) (rect : Scene.Rect)
    (es : List Scene.Event) (s : Scene.State)
    (ih : s.isMobile = true → s.hasDraggedInCurrentMobileSession = false →
      s.isDraggingMask = false → s.mousePosition = Scene.centerOf dpr rect) :
    (Scene.run O dpr rect s es).isMobile = true →
    (Scene.run O dpr rect s es).hasDraggedInCurrentMobileSession = false →
    (Scene.run O dpr rect s es).isDraggingMask = false →
    (Scene.run O dpr rect s es).mousePosition = Scene.centerOf dpr rect := by
  induction es generalizing s with
  | nil => simpa [Scene.run] using ih
  | cons e es ihes =>
      simp only [Scene.run, List.foldl_cons]
      exact ihes _ (step_centers O dpr rect s e ih)

/-- C6 (amended): for every run of the scene under a fixed render-surface
rect, every reached state that is mobile with no drag in progress and no
drag yet in the session has its FocusPoint at the exact surface center
scaled by the device-pixel ratio; in particular this holds on a fresh
mobile session before any touch.  (The unamended claim fails when the
surface is resized without toggling the input mode, because no effect
re-runs then; see the counterexample.) -/
theorem C6_center_invariant (O : TrigOracle) (dpr : ℚ) (rect : Scene.Rect)
    (w : ℚ) (es : List Scene.Event) :
    (Scene.run O dpr rect (Scene.mount O dpr rect w) es).isMobile = true →
    (Scene.run O dpr rect (Scene.mount O dpr rect w) es).hasDraggedInCurrentMobileSession = false →
    (Scene.run O dpr rect (Scene.mount O dpr rect w) es).isDraggingMask = false →
    (Scene.run O dpr rect (Scene.mount O dpr rect w) es).mousePosition =
      Scene.centerOf dpr rect := by
  apply run_centers
  apply step_centers
  intro h1
  simp [Scene.initialState] at h1

/-- C6 witness: a fresh mobile mount on a 400 x 800 surface at dpr 1
places the FocusPoint at the center (200, 400). -/
theorem C6_witness :
    (Scene.run zeroOracle 1 rectA (Scene.mount zeroOracle 1 rectA 400) []).mousePosition =
      Scene.centerOf 1 rectA :=
  C6_center_invariant zeroOracle 1 rectA 400 []
    (by norm_num [Scene.run, Scene.mount, Scene.step, Scene.initialState,
      Scene.runEffects, rectA])
    (by norm_num [Scene.run, Scene.mount, Scene.step, Scene.initialState,
      Scene.runEffects, rectA])
    (by norm_num [Scene.run, Scene.mount, Scene.step, Scene.initialState,
      Scene.runEffects, rectA])

/-- C6 counterexample: mount on a 400 x 800 surface in mobile mode, then
resize the surface to 450 x 700 while the window width stays mobile: no
effect re-runs, so the reached state is mobile with no drag and no drag
history, yet its FocusPoint (200, 400) differs from the current surface
center (225, 350). -/
theorem C6_counterexample :
    (Scene.step zeroOracle 1 rectB (Scene.mount zeroOracle 1 rectA 400)
        (.resize 450)).isMobile = true ∧
    (Scene.step zeroOracle 1 rectB (Scene.mount zeroOracle 1 rectA 400)
        (.resize 450)).hasDraggedInCurrentMobileSession = false ∧
    (Scene.step zeroOracle 1 rectB (Scene.mount zeroOracle 1 rectA 400)
        (.resize 450)).isDraggingMask = false ∧
    (Scene.step zeroOracle 1 rectB (Scene.mount zeroOracle 1 rectA 400)
        (.resize 450)).mousePosition ≠ Scene.centerOf 1 rectB := by
  norm_num [Scene.step, Scene.mount, Scene.initialState, Scene.runEffects,
    Scene.centerOf, rectA, rectB, Prod.ext_iff]
